import Mathlib

/-!
Verification of the health-export ingestion core of `obsidian-workout-importer`
(`src/main.ts`). Strings are embedded as `List Char`, byte buffers as
`List Nat` (each element a byte value), JavaScript numbers as `Rat`/`Int`,
and absolute instants as `Int` epoch milliseconds. Each definition is a
direct translation of the correspondingly named function in `src/main.ts`;
JavaScript builtins used by that code (`String.prototype.trim`, `split`,
`replace`, `parseFloat`, `parseInt`, `Date` parsing, `TextDecoder`) are
modelled explicitly below on the input formats the importer feeds them.
-/

namespace WorkoutImporter

/-- Shorthand: the character list of a string literal. -/
def chars (s : String) : List Char := s.data

/-- JS whitespace for `trim`, on the characters occurring in this pipeline. -/
def jsIsWhitespace (c : Char) : Bool :=
  c = ' ' ∨ c = '\t' ∨ c = '\n' ∨ c = '\r'

/-- Model of `String.prototype.trim`: strip whitespace from both ends. -/
def jsTrim (s : List Char) : List Char :=
  ((s.dropWhile jsIsWhitespace).reverse.dropWhile jsIsWhitespace).reverse

/-- Model of `String.prototype.split` with a one-character separator:
splits at every occurrence, preserving empty pieces; `"".split(sep)` is `[""]`. -/
def jsSplit (sep : Char) : List Char → List (List Char)
  | [] => [[]]
  | c :: rest =>
    match jsSplit sep rest with
    | [] => [[]]
    | t :: ts => if c = sep then [] :: t :: ts else (c :: t) :: ts

/-- Model of `String.prototype.split(/\r?\n/)` as used by
`parseWorkoutCsvRows` (src/main.ts:847): split on `'\n'` and drop one
carriage return left at the end of a piece by a `"\r\n"` pair. -/
def splitLinesJs (s : List Char) : List (List Char) :=
  (jsSplit '\n' s).map (fun l =>
    if l.getLast? = some '\r' then l.dropLast else l)

/-- Model of `String.prototype.replace(pat, "")` with a plain-string pattern:
remove the first occurrence of `pat`, if any. -/
def replaceFirstStr (pat : List Char) : List Char → List Char
  | [] => []
  | c :: rest =>
    if pat.isPrefixOf (c :: rest) then (c :: rest).drop pat.length
    else c :: replaceFirstStr pat rest

/-- Model of `String.prototype.replace(" ", "T")`-style single-character
replacement of the first occurrence. -/
def replaceFirstChar (pat repl : Char) : List Char → List Char
  | [] => []
  | c :: rest => if c = pat then repl :: rest else c :: replaceFirstChar pat repl rest

/-- Model of `String.prototype.includes` (substring containment). -/
def containsSubstr (needle : List Char) : List Char → Bool
  | [] => needle.isPrefixOf []
  | c :: rest => needle.isPrefixOf (c :: rest) || containsSubstr needle rest

/-- Model of `String.prototype.toLowerCase` on the ASCII header names the
importer compares. -/
def asciiLower (s : List Char) : List Char :=
  s.map (fun c => if 'A' ≤ c ∧ c ≤ 'Z' then Char.ofNat (c.toNat + 32) else c)

/-- Join a list of pieces with a one-character separator
(model of `Array.prototype.join("-")`). -/
def joinWith (sep : Char) : List (List Char) → List Char
  | [] => []
  | [x] => x
  | x :: y :: rest => x ++ sep :: joinWith sep (y :: rest)

/-- Decimal digit test. -/
def isDigitChar (c : Char) : Bool := '0' ≤ c ∧ c ≤ '9'

/-- Numeric value of a decimal digit character. -/
def digitVal (c : Char) : Nat := c.toNat - '0'.toNat

/-- Value of a digit run (the run is assumed nonempty where it matters). -/
def natVal (ds : List Char) : Nat :=
  ds.foldl (fun a c => a * 10 + digitVal c) 0

/-- A nonempty all-digit run parsed to its value, `none` otherwise. -/
def digitsToNat (ds : List Char) : Option Nat :=
  if ds ≠ [] ∧ ds.all isDigitChar then some (natVal ds) else none

/-- Model of `parseInt(s, 10)`: skip leading whitespace, optional sign, then
the longest leading digit run; `NaN` (here `none`) when no digit follows. -/
def jsParseInt (s : List Char) : Option Int :=
  let s1 := s.dropWhile jsIsWhitespace
  let signAndRest : Int × List Char :=
    match s1 with
    | '-' :: r => (-1, r)
    | '+' :: r => (1, r)
    | _ => (1, s1)
  let ds := signAndRest.2.takeWhile isDigitChar
  if ds = [] then none else some (signAndRest.1 * (natVal ds : Int))

/-- Model of `parseFloat(s)`: skip leading whitespace, optional sign, then the
longest prefix of the form `digits[.digits][(e|E)[sign]digits]` (or
`.digits...`); `NaN` (here `none`) when no mantissa digit is found. Finite
values are represented exactly as rationals; `Infinity` literals are not
modelled (the importer's inputs never contain them, and its `Number.isFinite`
guard discards them like `NaN`). -/
def jsParseFloat (s : List Char) : Option Rat :=
  let s1 := s.dropWhile jsIsWhitespace
  let signAndRest : Rat × List Char :=
    match s1 with
    | '-' :: r => (-1, r)
    | '+' :: r => (1, r)
    | _ => (1, s1)
  let sign := signAndRest.1
  let intPart := signAndRest.2.takeWhile isDigitChar
  let afterInt := signAndRest.2.dropWhile isDigitChar
  let fracPart :=
    match afterInt with
    | '.' :: r => r.takeWhile isDigitChar
    | _ => []
  let afterFrac :=
    match afterInt with
    | '.' :: r => r.dropWhile isDigitChar
    | _ => afterInt
  if intPart = [] ∧ fracPart = [] then none
  else
    let mantissa : Rat :=
      (natVal intPart : Rat) + (natVal fracPart : Rat) / ((10 : Rat) ^ fracPart.length)
    let exp : Int :=
      match afterFrac with
      | 'e' :: r => expVal r
      | 'E' :: r => expVal r
      | _ => 0
    some (sign * mantissa * (if 0 ≤ exp then ((10 : Rat) ^ exp.toNat) else 1 / ((10 : Rat) ^ (-exp).toNat)))
where
  /-- Exponent after `e`/`E`: optional sign then digits; an `e` not followed
  by a digit is not part of the number (`parseFloat("12e") = 12`). -/
  expVal (r : List Char) : Int :=
    let se : Int × List Char :=
      match r with
      | '-' :: r2 => (-1, r2)
      | '+' :: r2 => (1, r2)
      | _ => (1, r)
    let ds := se.2.takeWhile isDigitChar
    if ds = [] then 0 else se.1 * (natVal ds : Int)

/-- JS truthiness applied to an optional number, as in
`parseFloat(x) || undefined` (src/main.ts:765-774): `NaN` (none) and `0`
are falsy and collapse to `undefined`. -/
def truthyNum (o : Option Rat) : Option Rat :=
  match o with
  | some v => if v = 0 then none else some v
  | none => none

/-- Model of `Math.round`: floor of `x + 1/2` (JS rounds halves toward `+∞`). -/
def jsRound (q : Rat) : Int := ⌊q + (1 : Rat) / 2⌋

/-! Calendar arithmetic backing the `Date` model: days-from-civil (proleptic
Gregorian), so that instants become `Int` epoch milliseconds. -/

def isLeapYear (y : Nat) : Bool :=
  (y % 4 = 0 ∧ y % 100 ≠ 0) ∨ y % 400 = 0

def daysInMonth (y m : Nat) : Nat :=
  if m = 2 then (if isLeapYear y then 29 else 28)
  else if m = 4 ∨ m = 6 ∨ m = 9 ∨ m = 11 then 30
  else 31

/-- Days since 1970-01-01 of a civil date (standard era-based algorithm). -/
def daysFromCivil (y m d : Nat) : Int :=
  let yy : Int := if m ≤ 2 then (y : Int) - 1 else (y : Int)
  let era : Int := (if 0 ≤ yy then yy else yy - 399) / 400
  let yoe : Int := yy - era * 400
  let mp : Int := if 2 < m then (m : Int) - 3 else (m : Int) + 9
  let doy : Int := (153 * mp + 2) / 5 + (d : Int) - 1
  let doe : Int := yoe * 365 + yoe / 4 - yoe / 100 + doy
  era * 146097 + doe - 719468

/-- Epoch milliseconds of a civil date-time (UTC). The model identifies the
host's local zone with UTC; only differences of instants matter to the
importer's claims, and both sides of every comparison are parsed under the
same convention. -/
def civilToMs (y mo d h mi s : Nat) : Int :=
  daysFromCivil y mo d * 86400000 + (h : Int) * 3600000 + (mi : Int) * 60000 + (s : Int) * 1000

/-- Component validity an ES `Date` requires of an ISO-like string: month and
day in calendar range, time below 24:00:00 (or exactly 24:00:00). -/
def validCivil (y mo d h mi s : Nat) : Bool :=
  1 ≤ mo ∧ mo ≤ 12 ∧ 1 ≤ d ∧ d ≤ daysInMonth y mo ∧
  (h ≤ 23 ∨ (h = 24 ∧ mi = 0 ∧ s = 0)) ∧ mi ≤ 59 ∧ s ≤ 59

/-- Parse a timezone-offset tail: empty (treated as UTC, see `civilToMs`),
`Z`, or `±HH:MM` / `±HHMM`, optionally preceded by one space (the lax form
V8 accepts for the export's `"YYYY-MM-DD HH:MM:SS ±HHMM"`). Returns the
offset in minutes, `none` on junk. -/
def parseTzTail : List Char → Option Int
  | [] => some 0
  | ['Z'] => some 0
  | ' ' :: rest => parseTzOffset rest
  | rest => parseTzOffset rest
where
  parseTzOffset : List Char → Option Int
    | sgn :: h1 :: h2 :: rest =>
      if sgn = '+' ∨ sgn = '-' then
        match digitsToNat [h1, h2] with
        | none => none
        | some hh =>
          let mmPart : Option Nat :=
            match rest with
            | [':', m1, m2] => digitsToNat [m1, m2]
            | [m1, m2] => digitsToNat [m1, m2]
            | _ => none
          match mmPart with
          | none => none
          | some mm =>
            if hh ≤ 23 ∧ mm ≤ 59 then
              some ((if sgn = '-' then -1 else 1) * ((hh : Int) * 60 + (mm : Int)))
            else none
      else none
    | _ => none

/-- Model of `new Date(s)` on the ISO-like strings this importer builds
(`"YYYY-MM-DD"`, `"YYYY-MM-DDTHH:MM[:SS]"`, optionally followed by a
timezone tail): epoch milliseconds, `none` for an invalid date. -/
def parseJsDate (s : List Char) : Option Int :=
  match s with
  | y1 :: y2 :: y3 :: y4 :: '-' :: m1 :: m2 :: '-' :: d1 :: d2 :: rest =>
    match digitsToNat [y1, y2, y3, y4], digitsToNat [m1, m2], digitsToNat [d1, d2] with
    | some y, some mo, some d =>
      match rest with
      | [] =>
        if validCivil y mo d 0 0 0 then some (civilToMs y mo d 0 0 0) else none
      | 'T' :: h1 :: h2 :: ':' :: i1 :: i2 :: rest2 =>
        match digitsToNat [h1, h2], digitsToNat [i1, i2] with
        | some h, some mi =>
          let secAndTail : Option (Nat × List Char) :=
            match rest2 with
            | ':' :: s1 :: s2 :: rest3 =>
              match digitsToNat [s1, s2] with
              | some ss => some (ss, rest3)
              | none => none
            | _ => some (0, rest2)
          match secAndTail with
          | none => none
          | some (ss, tail) =>
            match parseTzTail tail with
            | none => none
            | some offMin =>
              if validCivil y mo d h mi ss then
                some (civilToMs y mo d h mi ss - offMin * 60000)
              else none
        | _, _ => none
      | _ => none
    | _, _, _ => none
  | _ => none

/-! The CSV tokenizer (src/main.ts:886-910, `parseCsvLine`). -/

/-- The character loop of `parseCsvLine`: comma-splitting outside double
quotes, with `""` inside a quoted span unescaped to one quote; the final
accumulated field is pushed at end of line. -/
def csvSplit : List Char → Bool → List Char → List (List Char)
  | [], _, current => [current]
  | '"' :: '"' :: rest2, true, current => csvSplit rest2 true (current ++ ['"'])
  | '"' :: rest, true, current => csvSplit rest false current
  | '"' :: rest, false, current => csvSplit rest true current
  | ',' :: rest, true, current => csvSplit rest true (current ++ [','])
  | ',' :: rest, false, current => current :: csvSplit rest false []
  | c :: rest, inQuotes, current => csvSplit rest inQuotes (current ++ [c])

/-- Model of `parseCsvLine` (src/main.ts:886-910): tokenize, then trim every field. -/
def parseCsvLine (line : List Char) : List (List Char) :=
  (csvSplit line false []).map jsTrim

/-! The summary-row parser (src/main.ts:846-884, `parseWorkoutCsvRows`).
A JS `Record<string, string>` row is embedded as an association list built
in column order; `recGet` reads it with JS object semantics (the last
assignment to a key wins). -/

/-- A CSV row object: keys paired with values, in assignment order. -/
abbrev JsRecord := List (List Char × List Char)

/-- Property lookup: the value of the last assignment to `key`, if any. -/
def recGet (record : JsRecord) (key : List Char) : Option (List Char) :=
  (record.reverse.find? (fun p => p.1 == key)).map (fun p => p.2)

/-- Decimal digits of a natural number (for the `column_${j}` fallback key). -/
def natToChars (n : Nat) : List Char := (Nat.toDigits 10 n)

/-- Header cell clean-up at src/main.ts:857: strip one leading BOM, trim. -/
def cleanHeaderCell (col : List Char) : List Char :=
  jsTrim (match col with
    | '\uFEFF' :: rest => rest
    | other => other)

/-- The key used for column `j` (src/main.ts:876): the header name, or
`column_${j}` when that name is empty. -/
def keyOf (header : List (List Char)) (j : Nat) : List Char :=
  let name := header.getD j []
  if name = [] then chars "column_" ++ natToChars j else name

/-- One row object (src/main.ts:874-878): a key/value pair for every header
column, missing values defaulting to the empty string. -/
def mkRow (header : List (List Char)) (values : List (List Char)) : JsRecord :=
  (List.range header.length).map (fun j => (keyOf header j, values.getD j []))

/-- Model of `parseWorkoutCsvRows` (src/main.ts:846-884). -/
def parseWorkoutCsvRows (csvText : List Char) : List JsRecord :=
  let lines := (splitLinesJs csvText).map jsTrim
  match lines with
  | [] => []
  | headerLine :: dataLines =>
    if headerLine = [] then []
    else
      let header := (parseCsvLine headerLine).map cleanHeaderCell
      if ¬ header.any (fun col => containsSubstr (chars "workout type") (asciiLower col)) then []
      else
        dataLines.filterMap (fun line =>
          if line = [] then none
          else
            let values := parseCsvLine line
            if values.all (fun v => v = []) then none
            else some (mkRow header values))

/-! The workout-record normalizer (src/main.ts:912-1011). -/

/-- Model of `parseDateTime` (src/main.ts:977-989): reject missing/empty input, trim,
substitute the first space with `T`, parse as a JS date. -/
def parseDateTime (value : Option (List Char)) : Option Int :=
  match value with
  | none => none
  | some v =>
    if v = [] then none
    else parseJsDate (replaceFirstChar ' ' 'T' (jsTrim v))

/-- Model of `parseDurationToSeconds` (src/main.ts:991-1002): reject missing/empty
input; split on `:`, parse each part with `parseInt`; `undefined` when any
part is `NaN`, else the left fold `total * 60 + part`. -/
def parseDurationToSeconds (value : Option (List Char)) : Option Int :=
  match value with
  | none => none
  | some v =>
    if v = [] then none
    else
      let parts := (jsSplit ':' v).map jsParseInt
      if parts.any (fun p => p.isNone) then none
      else some (parts.foldl (fun total p => total * 60 + p.getD 0) 0)

/-- Model of `parseNumber` (src/main.ts:1004-1011): reject missing/empty input;
`parseFloat`, kept only when finite. -/
def parseNumber (value : Option (List Char)) : Option Rat :=
  match value with
  | none => none
  | some v => if v = [] then none else jsParseFloat v

/-- The canonical workout record built by `createWorkoutFromCsvRecord`
(src/main.ts:930-970). `start`/`endMs` hold the instant as epoch
milliseconds (the source stores `toISOString()` of the same instant). -/
structure Workout where
  name : List Char
  start : Int
  endMs : Option Int
  duration : Int
  location : Option (List Char)
  activeEnergyBurned : Option Rat
  restingEnergy : Option Rat
  intensity : Option Rat
  distance : Option Rat
  avgHeartRate : Option Rat
  maxHeartRate : Option Rat
  flightsClimbed : Option Rat
  stepCount : Option Rat
  avgSpeed : Option Rat
  maxSpeed : Option Rat
  elevationAscended : Option Rat
  elevationDescended : Option Rat
  temperature : Option Rat
  humidity : Option Rat
deriving DecidableEq, Repr

/-- Model of `createWorkoutFromCsvRecord` (src/main.ts:912-975): `null` for an empty
`Workout Type` or `Start` or an unparseable `Start`; duration from the
explicit `Duration` field, else derived from `end - start`, else `0`
(line 972's reassignment `workout.duration = durationSeconds ?? workout.duration`
is a no-op and is folded into the single assignment here); quantity fields
attached only when `parseNumber` succeeds. -/
def createWorkoutFromCsvRecord (record : JsRecord) : Option Workout :=
  match (recGet record (chars "Workout Type")).map jsTrim,
        (recGet record (chars "Start")).map jsTrim with
  | some workoutType, some startString =>
    if workoutType = [] ∨ startString = [] then none
    else
      match parseDateTime (some startString) with
      | none => none
      | some startMs =>
        let endMs := parseDateTime ((recGet record (chars "End")).map jsTrim)
        let explicitDur := parseDurationToSeconds ((recGet record (chars "Duration")).map jsTrim)
        let durationSeconds : Option Int :=
          match explicitDur, endMs with
          | none, some e => some (jsRound ((((e - startMs) : Int) : Rat) / 1000))
          | d, _ => d
        some {
          name := workoutType
          start := startMs
          endMs := endMs
          duration := durationSeconds.getD 0
          location :=
            match (recGet record (chars "Location")).map jsTrim with
            | some l => if l = [] then none else some l
            | none => none
          activeEnergyBurned := parseNumber (recGet record (chars "Active Energy (kcal)"))
          restingEnergy := parseNumber (recGet record (chars "Resting Energy (kcal)"))
          intensity := parseNumber (recGet record (chars "Intensity (kcal/hr·kg)"))
          distance := parseNumber (recGet record (chars "Distance (mi)"))
          avgHeartRate := parseNumber (recGet record (chars "Avg. Heart Rate (count/min)"))
          maxHeartRate := parseNumber (recGet record (chars "Max. Heart Rate (count/min)"))
          flightsClimbed := parseNumber (recGet record (chars "Flights Climbed"))
          stepCount := parseNumber (recGet record (chars "Step Count"))
          avgSpeed := parseNumber (recGet record (chars "Avg. Speed (mi/hr)"))
          maxSpeed := parseNumber (recGet record (chars "Max. Speed (mi/hr)"))
          elevationAscended := parseNumber (recGet record (chars "Elevation Ascended (ft)"))
          elevationDescended := parseNumber (recGet record (chars "Elevation Descended (ft)"))
          temperature := parseNumber (recGet record (chars "Temperature (degF)"))
          humidity := parseNumber (recGet record (chars "Humidity (%)"))
        }
  | _, _ => none

/-! The time-series parser (src/main.ts:746-781, `parseDetailCsv`). -/

/-- One timestamped sample; either `value` or the `min`/`max`/`avg` triple
is populated, per the header-decided layout. -/
structure TimeSeriesDataPoint where
  timestamp : List Char
  min : Option Rat := none
  max : Option Rat := none
  avg : Option Rat := none
  value : Option Rat := none
deriving DecidableEq, Repr

/-- The header test at src/main.ts:764: the tokenized header contains the
exact cell `"Min"` or `"min"` (`Array.prototype.includes`, not substring,
not case-insensitive). -/
def hasMinHeader (header : List (List Char)) : Bool :=
  header.contains (chars "Min") || header.contains (chars "min")

/-- The header test at src/main.ts:768: exact cell `"Value"` or `"value"`. -/
def hasValueHeader (header : List (List Char)) : Bool :=
  header.contains (chars "Value") || header.contains (chars "value")

/-- The point built from one data row (src/main.ts:759-775): fixed columns,
each numeric read as `parseFloat(values[i]) || undefined`. -/
def mkPoint (header values : List (List Char)) : TimeSeriesDataPoint :=
  let timestamp := values.getD 0 []
  if hasMinHeader header then
    { timestamp := timestamp
      min := truthyNum (jsParseFloat (values.getD 1 []))
      max := truthyNum (jsParseFloat (values.getD 2 []))
      avg := truthyNum (jsParseFloat (values.getD 3 [])) }
  else if hasValueHeader header then
    { timestamp := timestamp
      value := truthyNum (jsParseFloat (values.getD 1 [])) }
  else
    { timestamp := timestamp
      min := truthyNum (jsParseFloat (values.getD 1 []))
      max := truthyNum (jsParseFloat (values.getD 2 []))
      avg := truthyNum (jsParseFloat (values.getD 3 [])) }

/-- Model of `parseDetailCsv` (src/main.ts:746-781): trim, split into lines; fewer
than two lines gives no points; rows with fewer than two fields are
skipped; every other row yields one point under the header's layout. -/
def parseDetailCsv (csvText : List Char) : List TimeSeriesDataPoint :=
  let lines := jsSplit '\n' (jsTrim csvText)
  if lines.length < 2 then []
  else
    let header := parseCsvLine (lines.getD 0 [])
    (lines.drop 1).filterMap (fun line =>
      let values := parseCsvLine line
      if values.length < 2 then none
      else some (mkPoint header values))

/-! The detail-file correlator (src/main.ts:667-744 and 783-798). -/

/-- Model of `parseHealthTimestamp` (src/main.ts:783-798): a 15-character
`YYYYMMDD_HHMMSS` token (the separator character at position 8 is never
examined), assembled into `"YYYY-MM-DDTHH:MM:SS"` and parsed as a JS date;
comparisons use the resulting epoch milliseconds. -/
def parseHealthTimestamp (timestamp : List Char) : Option Int :=
  if timestamp.length ≠ 15 then none
  else
    let sub := fun (a b : Nat) => (timestamp.drop a).take (b - a)
    match digitsToNat (sub 0 4), digitsToNat (sub 4 6), digitsToNat (sub 6 8),
          digitsToNat (sub 9 11), digitsToNat (sub 11 13), digitsToNat (sub 13 15) with
    | some y, some mo, some d, some h, some mi, some s =>
      if validCivil y mo d h mi s then some (civilToMs y mo d h mi s) else none
    | _, _, _, _, _, _ => none

/-- The workout-type token of a detail file name (src/main.ts:692):
`parts.slice(0, -2).join("-")`. -/
def typeToken (name : List Char) : List Char :=
  joinWith '-' ((jsSplit '-' name).dropLast.dropLast)

/-- The timestamp token of a detail file name (src/main.ts:694): the last
`-`-separated part with the first `".csv"` then the first `".gpx"`
occurrence removed. -/
def timestampToken (name : List Char) : List Char :=
  replaceFirstStr (chars ".gpx") (replaceFirstStr (chars ".csv") ((jsSplit '-' name).getLastD []))

/-- The matching guard of the correlator loop (src/main.ts:687-706): a
detail file is matched to a workout exactly when none of the three
`continue`s fires — at least three `-`-parts, type token equal to the
workout's type, and, when a start instant is available and the timestamp
token parses, a gap of at most 5000 ms. -/
def detailFileMatches (workoutType : List Char) (workoutStart : Option Int)
    (name : List Char) : Bool :=
  if (jsSplit '-' name).length < 3 then false
  else if typeToken name ≠ workoutType then false
  else
    match workoutStart with
    | none => true
    | some ws =>
      match parseHealthTimestamp (timestampToken name) with
      | none => true
      | some ft => decide ((ws - ft).natAbs ≤ 5000)

/-! The ZIP container decoder (src/main.ts:2615-2718). Buffers are byte
lists; `DataView.getUint16/getUint32` little-endian reads become `readU16`
and `readU32` (every read the source performs is guarded in bounds, so the
out-of-range default `0` is never exercised on the source's paths). -/

/-- The byte at an offset (`bytes[i]`). -/
def byteAt (bytes : List Nat) (i : Nat) : Nat := bytes.getD i 0

/-- Model of `view.getUint16(i, true)` — little-endian. -/
def readU16 (bytes : List Nat) (i : Nat) : Nat :=
  byteAt bytes i + 256 * byteAt bytes (i + 1)

/-- Model of `view.getUint32(i, true)` — little-endian. -/
def readU32 (bytes : List Nat) (i : Nat) : Nat :=
  byteAt bytes i + 256 * byteAt bytes (i + 1) +
    65536 * byteAt bytes (i + 2) + 16777216 * byteAt bytes (i + 3)

/-- Model of `bytes.subarray(start, start + len)`. -/
def sliceList (bytes : List Nat) (start len : Nat) : List Nat :=
  (bytes.drop start).take len

/-- The replacement character a `TextDecoder` emits for malformed input. -/
def replChar : Char := Char.ofNat 0xFFFD

/-- Model of `TextDecoder.decode` (UTF-8, non-fatal): the WHATWG decoding
algorithm, emitting U+FFFD for invalid sequences and reconsuming the bytes
an aborted sequence did not consume. -/
def utf8Decode : List Nat → List Char
  | [] => []
  | b :: rest =>
    if b ≤ 0x7F then Char.ofNat b :: utf8Decode rest
    else if b < 0xC2 then replChar :: utf8Decode rest
    else if b ≤ 0xDF then
      match rest with
      | [] => [replChar]
      | b2 :: rest2 =>
        if 0x80 ≤ b2 ∧ b2 ≤ 0xBF then
          Char.ofNat ((b - 0xC0) * 64 + (b2 - 0x80)) :: utf8Decode rest2
        else replChar :: utf8Decode (b2 :: rest2)
    else if b ≤ 0xEF then
      match rest with
      | [] => [replChar]
      | b2 :: rest2 =>
        if (if b = 0xE0 then 0xA0 else 0x80) ≤ b2 ∧ b2 ≤ (if b = 0xED then 0x9F else 0xBF) then
          match rest2 with
          | [] => [replChar]
          | b3 :: rest3 =>
            if 0x80 ≤ b3 ∧ b3 ≤ 0xBF then
              Char.ofNat ((b - 0xE0) * 4096 + (b2 - 0x80) * 64 + (b3 - 0x80)) :: utf8Decode rest3
            else replChar :: utf8Decode (b3 :: rest3)
        else replChar :: utf8Decode (b2 :: rest2)
    else if b ≤ 0xF4 then
      match rest with
      | [] => [replChar]
      | b2 :: rest2 =>
        if (if b = 0xF0 then 0x90 else 0x80) ≤ b2 ∧ b2 ≤ (if b = 0xF4 then 0x8F else 0xBF) then
          match rest2 with
          | [] => [replChar]
          | b3 :: rest3 =>
            if 0x80 ≤ b3 ∧ b3 ≤ 0xBF then
              match rest3 with
              | [] => [replChar]
              | b4 :: rest4 =>
                if 0x80 ≤ b4 ∧ b4 ≤ 0xBF then
                  Char.ofNat ((b - 0xF0) * 262144 + (b2 - 0x80) * 4096 +
                    (b3 - 0x80) * 64 + (b4 - 0x80)) :: utf8Decode rest4
                else replChar :: utf8Decode (b4 :: rest4)
            else replChar :: utf8Decode (b3 :: rest3)
        else replChar :: utf8Decode (b2 :: rest2)
    else replChar :: utf8Decode rest

/-- The `ZipEntryInfo` record (src/main.ts:2615-2620). -/
structure ZipEntryInfo where
  name : List Char
  compressionMethod : Nat
  compressedSize : Nat
  dataStart : Nat
deriving DecidableEq, Repr

/-- The backward scan of `findEndOfCentralDirectory` (src/main.ts:2711-2715)
from index `i` down to index `lo`, looking for the EOCD signature. -/
def findEOCDFrom (bytes : List Nat) (lo : Nat) : Nat → Option Nat
  | 0 => if readU32 bytes 0 = 0x06054b50 then some 0 else none
  | i + 1 =>
    if readU32 bytes (i + 1) = 0x06054b50 then some (i + 1)
    else if i + 1 ≤ lo then none
    else findEOCDFrom bytes lo i

/-- Model of `findEndOfCentralDirectory` (src/main.ts:2704-2718): search backward
from `length - 22` within the last `64 KiB + 22` bytes; `none` stands for
the source's `-1`. -/
def findEndOfCentralDirectory (bytes : List Nat) : Option Nat :=
  if bytes.length < 22 then none
  else
    let maxSearch := Nat.min (bytes.length - 22) 0xffff
    findEOCDFrom bytes (bytes.length - 22 - maxSearch) (bytes.length - 22)

/-- The central-directory walk of `parseZipEntries` (src/main.ts:2640-2680),
by remaining entry count; every `break` returns the entries accumulated so
far, and an out-of-range payload skips the entry but continues the walk. -/
def parseZipLoop (bytes : List Nat) : Nat → Nat → List ZipEntryInfo → List ZipEntryInfo
  | 0, _, acc => acc
  | r + 1, offset, acc =>
    if bytes.length < offset + 46 then acc
    else if readU32 bytes offset ≠ 0x02014b50 then acc
    else
      let fileNameLength := readU16 bytes (offset + 28)
      let extraLength := readU16 bytes (offset + 30)
      let commentLength := readU16 bytes (offset + 32)
      let compressionMethod := readU16 bytes (offset + 10)
      let compressedSize := readU32 bytes (offset + 20)
      let localHeaderOffset := readU32 bytes (offset + 42)
      if bytes.length < offset + 46 + fileNameLength then acc
      else
        let fileName := utf8Decode (sliceList bytes (offset + 46) fileNameLength)
        if bytes.length < localHeaderOffset + 30 then acc
        else
          let localNameLength := readU16 bytes (localHeaderOffset + 26)
          let localExtraLength := readU16 bytes (localHeaderOffset + 28)
          let dataStart := localHeaderOffset + 30 + localNameLength + localExtraLength
          let nextOffset := offset + 46 + fileNameLength + extraLength + commentLength
          if bytes.length < dataStart + compressedSize then
            parseZipLoop bytes r nextOffset acc
          else
            parseZipLoop bytes r nextOffset
              (acc ++ [⟨fileName, compressionMethod, compressedSize, dataStart⟩])

/-- Model of `parseZipEntries` (src/main.ts:2624-2683). -/
def parseZipEntries (bytes : List Nat) : List ZipEntryInfo :=
  if bytes.length < 22 then []
  else
    match findEndOfCentralDirectory bytes with
    | none => []
    | some eocdOffset =>
      let totalEntries := readU16 bytes (eocdOffset + 10)
      let centralDirOffset := readU32 bytes (eocdOffset + 16)
      parseZipLoop bytes totalEntries centralDirOffset []

/-- Model of `decodeZipEntry` (src/main.ts:2685-2702). The raw-inflate primitive
(`inflateRawSync` from `zlib`, an external collaborator) is a parameter; it
either returns inflated bytes or raises (`Except.error`), as the Node
primitive does on corrupt deflate data. The source calls it with no
surrounding `try`, so its exception propagates out of `decodeZipEntry`;
every other path returns normally (`Except.ok`), with `none` standing for
the source's `null`. -/
def decodeZipEntry (inflate : List Nat → Except Unit (List Nat))
    (bytes : List Nat) (entry : ZipEntryInfo) : Except Unit (Option (List Char)) :=
  if bytes.length < entry.dataStart + entry.compressedSize then .ok none
  else
    let slice := sliceList bytes entry.dataStart entry.compressedSize
    if entry.compressionMethod = 0 then .ok (some (utf8Decode slice))
    else if entry.compressionMethod = 8 then
      match inflate slice with
      | .ok inflated => .ok (some (utf8Decode inflated))
      | .error e => .error e
    else .ok none

/-! The summary-file selection of `processZipFile` (src/main.ts:542-567):
the loop classifies each entry by base name; an entry matching
`Workouts-*.csv` is assigned to `summaryEntry` unconditionally (the
detail-collection branches never touch `summaryEntry`, so the fold below
is that loop's exact effect on it). -/

/-- Model of `entry.name.split("/").pop() ?? entry.name` (src/main.ts:543). -/
def baseNameOf (name : List Char) : List Char :=
  (jsSplit '/' name).getLastD name

/-- The summary test at src/main.ts:546. -/
def isSummaryCsvName (baseName : List Char) : Bool :=
  (chars "Workouts-").isPrefixOf baseName && (chars ".csv").isSuffixOf baseName

/-- The value of `summaryEntry` after the classification loop. -/
def selectSummaryEntry (entries : List ZipEntryInfo) : Option ZipEntryInfo :=
  entries.foldl
    (fun summaryEntry entry =>
      if isSummaryCsvName (baseNameOf entry.name) then some entry else summaryEntry)
    none

/-! A canonical well-formed stored (method 0) single-entry ZIP archive, for
the round-trip property: local file header, file name, payload, central
directory record, end-of-central-directory record, all sizes and offsets
consistent, empty extra/comment fields. -/

/-- Two little-endian bytes of a 16-bit value. -/
def u16le (n : Nat) : List Nat := [n % 256, n / 256 % 256]

/-- Four little-endian bytes of a 32-bit value. -/
def u32le (n : Nat) : List Nat :=
  [n % 256, n / 256 % 256, n / 65536 % 256, n / 16777216 % 256]

/-- The 30-byte local file header of the stored entry (method 0, name
length `n.length`, sizes `p.length`, zeroed metadata). -/
def localHeaderBytes (n p : List Nat) : List Nat :=
  [0x50, 0x4b, 0x03, 0x04] ++ u16le 20 ++ u16le 0 ++ u16le 0 ++ u16le 0 ++ u16le 0 ++
    u32le 0 ++ u32le p.length ++ u32le p.length ++ u16le n.length ++ u16le 0

/-- The 46-byte central-directory record of the stored entry (local header
at offset 0, empty extra/comment). -/
def centralDirBytes (n p : List Nat) : List Nat :=
  [0x50, 0x4b, 0x01, 0x02] ++ u16le 20 ++ u16le 20 ++ u16le 0 ++ u16le 0 ++
    u16le 0 ++ u16le 0 ++ u32le 0 ++ u32le p.length ++ u32le p.length ++
    u16le n.length ++ u16le 0 ++ u16le 0 ++ u16le 0 ++ u16le 0 ++ u32le 0 ++ u32le 0

/-- The 22-byte end-of-central-directory record (one entry, central
directory of size `46 + n.length` at offset `30 + n.length + p.length`,
empty comment). -/
def eocdBytes (n p : List Nat) : List Nat :=
  [0x50, 0x4b, 0x05, 0x06] ++ u16le 0 ++ u16le 0 ++ u16le 1 ++ u16le 1 ++
    u32le (46 + n.length) ++ u32le (30 + n.length + p.length) ++ u16le 0

/-- The archive bytes: local header, name, payload, central directory with
its copy of the name, EOCD. -/
def mkStoredZip (n p : List Nat) : List Nat :=
  localHeaderBytes n p ++ n ++ p ++ (centralDirBytes n p ++ n) ++ eocdBytes n p

/-! Concrete sample inputs used by witnesses and counterexamples. -/

/-- The spec's example summary row (`Workout Type="Running"`,
`Start="2024-09-02 13:52:08 -0700"`, `Duration="0:45:30"`). -/
def sampleDurationRow : JsRecord :=
  [(chars "Workout Type", chars "Running"),
   (chars "Start", chars "2024-09-02 13:52:08 -0700"),
   (chars "Duration", chars "0:45:30")]

/-- A summary row whose `Duration` field carries a negative part. -/
def sampleNegativeDurationRow : JsRecord :=
  [(chars "Workout Type", chars "X"),
   (chars "Start", chars "2024-09-02 13:52:08"),
   (chars "Duration", chars "-5")]

/-- A summary row with an empty `Workout Type`. -/
def sampleTypelessRow : JsRecord :=
  [(chars "Workout Type", chars ""), (chars "Start", chars "2024-09-02 13:52:08")]

end WorkoutImporter

namespace WorkoutImporter

/-! Helper lemmas. -/

theorem jsSplit_ne_nil (sep : Char) (s : List Char) : jsSplit sep s ≠ [] := by
  cases s with
  | nil => simp [jsSplit]
  | cons c rest =>
    rw [jsSplit]
    cases jsSplit sep rest with
    | nil => simp
    | cons t ts =>
      by_cases h : c = sep <;> simp [h]

theorem length_filterMap_countP {α β : Type} (f : α → Option β) (l : List α) :
    (l.filterMap f).length = l.countP (fun a => (f a).isSome) := by
  induction l with
  | nil => rfl
  | cons a t ih =>
    cases h : f a <;>
      simp [List.filterMap_cons, h, List.countP_cons, ih, Option.isSome]

theorem truthyNum_none_iff (o : Option Rat) :
    truthyNum o = none ↔ o = none ∨ o = some 0 := by
  cases o with
  | none => simp [truthyNum]
  | some v =>
    by_cases h : v = 0 <;> simp [truthyNum, h]

theorem truthyNum_some_of (x : Rat) (hx : x ≠ 0) : truthyNum (some x) = some x := by
  simp [truthyNum, hx]

theorem summary_foldl_eq (entries : List ZipEntryInfo) (init : Option ZipEntryInfo) :
    entries.foldl
        (fun acc e => if isSummaryCsvName (baseNameOf e.name) then some e else acc) init =
      match (entries.filter (fun e => isSummaryCsvName (baseNameOf e.name))).getLast? with
      | some e => some e
      | none => init := by
  induction entries generalizing init with
  | nil => rfl
  | cons e t ih =>
    by_cases hpe : isSummaryCsvName (baseNameOf e.name)
    · rw [List.foldl_cons, if_pos hpe, ih, List.filter_cons_of_pos (by simpa using hpe)]
      cases hf : t.filter (fun e => isSummaryCsvName (baseNameOf e.name)) with
      | nil => simp
      | cons y ys =>
        rw [List.getLast?_cons_cons]
        cases hly : (y :: ys).getLast? with
        | none => simp at hly
        | some x => rfl
    · rw [List.foldl_cons, if_neg hpe, ih, List.filter_cons_of_neg (by simpa using hpe)]

/-! Claim C4 — summary-file selection among `Workouts-*.csv` entries. The
loop at src/main.ts:542-550 assigns `summaryEntry` on every match without
checking whether one was already found, so the last matching entry in
entry order is used, not the first. -/

/-- C4 counterexample: with two matching entries, the second one is
selected, not the first as the claim states. -/
theorem c4_counterexample :
    selectSummaryEntry
        [⟨chars "Workouts-1.csv", 0, 0, 0⟩, ⟨chars "Workouts-2.csv", 8, 9, 10⟩] =
        some ⟨chars "Workouts-2.csv", 8, 9, 10⟩ ∧
      selectSummaryEntry
        [⟨chars "Workouts-1.csv", 0, 0, 0⟩, ⟨chars "Workouts-2.csv", 8, 9, 10⟩] ≠
        some ⟨chars "Workouts-1.csv", 0, 0, 0⟩ := by
  decide

/-- C4 amended: among the decoded entries whose base name starts with
`"Workouts-"` and ends with `".csv"`, the last such entry in entry order is
used as the summary file. -/
theorem c4_summary_last_match_wins (entries : List ZipEntryInfo) :
    selectSummaryEntry entries =
      (entries.filter (fun e => isSummaryCsvName (baseNameOf e.name))).getLast? := by
  rw [selectSummaryEntry, summary_foldl_eq]
  cases h : (entries.filter (fun e => isSummaryCsvName (baseNameOf e.name))).getLast? <;> rfl

/-! Claim C2 — `decodeZipEntry` failure semantics. An unsupported method or
an out-of-range payload does yield `null` without throwing, but the method-8
branch calls the raw-inflate primitive with no surrounding `try`
(src/main.ts:2696), so an inflate failure on a corrupt deflate stream
propagates as an exception instead of degrading to `null`. -/

/-- C2 counterexample: a method-8 entry whose slice the inflate primitive
rejects (as `zlib.inflateRawSync` does for corrupt deflate data) makes
`decodeZipEntry` raise rather than return `null`. -/
theorem c2_counterexample :
    decodeZipEntry (fun _ => Except.error ()) [0] ⟨[], 8, 1, 0⟩ = Except.error () := rfl

/-- C2 amended: `decodeZipEntry` never throws except through the method-8
inflate call — a method outside `{0, 8}` yields `null`, a payload range
exceeding the buffer yields `null`, and any raised exception is exactly an
inflate failure on an in-range method-8 entry. -/
theorem c2_decode_failure_semantics (inflate : List Nat → Except Unit (List Nat))
    (bytes : List Nat) (entry : ZipEntryInfo) :
    (entry.compressionMethod ≠ 0 → entry.compressionMethod ≠ 8 →
        decodeZipEntry inflate bytes entry = Except.ok none) ∧
    (bytes.length < entry.dataStart + entry.compressedSize →
        decodeZipEntry inflate bytes entry = Except.ok none) ∧
    (∀ e, decodeZipEntry inflate bytes entry = Except.error e →
        entry.compressionMethod = 8 ∧
        entry.dataStart + entry.compressedSize ≤ bytes.length ∧
        inflate (sliceList bytes entry.dataStart entry.compressedSize) = Except.error e) := by
  refine ⟨?_, ?_, ?_⟩
  · intro h0 h8
    by_cases hlen : bytes.length < entry.dataStart + entry.compressedSize
    · simp [decodeZipEntry, hlen]
    · simp [decodeZipEntry, hlen, h0, h8]
  · intro hlen
    simp [decodeZipEntry, hlen]
  · intro e he
    by_cases hlen : bytes.length < entry.dataStart + entry.compressedSize
    · simp [decodeZipEntry, hlen] at he
    · by_cases h0 : entry.compressionMethod = 0
      · simp [decodeZipEntry, hlen, h0] at he
      · by_cases h8 : entry.compressionMethod = 8
        · cases hi : inflate (sliceList bytes entry.dataStart entry.compressedSize) with
          | ok v => simp [decodeZipEntry, hlen, h0, h8, hi] at he
          | error e2 =>
            simp [decodeZipEntry, hlen, h0, h8, hi] at he
            exact ⟨h8, by omega, congrArg Except.error (Subsingleton.elim e2 e)⟩
        · simp [decodeZipEntry, hlen, h0, h8] at he

/-- C2 witness: an entry with method 5 decodes to `null` without raising. -/
theorem c2_witness :
    decodeZipEntry (fun _ => Except.ok []) [] ⟨[], 5, 0, 0⟩ = Except.ok none :=
  (c2_decode_failure_semantics (fun _ => Except.ok []) [] ⟨[], 5, 0, 0⟩).1
    (by decide) (by decide)

/-! Claim C3 — numeric fields of a time-series point. A field that fails to
parse is indeed absent and the row is still emitted, but the reads at
src/main.ts:765-774 are `parseFloat(v) || undefined`, so a field that
parses to `0` is also dropped (JS `0` is falsy), contradicting the claim
that a parsed `0` appears on the point. -/

/-- Helper: the point layout selected by a `"Min"`/`"min"` header cell. -/
theorem mkPoint_min_layout (header values : List (List Char))
    (hmin : hasMinHeader header = true) :
    mkPoint header values =
      { timestamp := values.getD 0 []
        min := truthyNum (jsParseFloat (values.getD 1 []))
        max := truthyNum (jsParseFloat (values.getD 2 []))
        avg := truthyNum (jsParseFloat (values.getD 3 []))
        value := none } := by
  simp [mkPoint, hmin]

/-- Helper: the point layout selected by a `"Value"`/`"value"` header cell
in the absence of a `"Min"`/`"min"` cell. -/
theorem mkPoint_value_layout (header values : List (List Char))
    (hmin : hasMinHeader header = false) (hval : hasValueHeader header = true) :
    mkPoint header values =
      { timestamp := values.getD 0 []
        min := none
        max := none
        avg := none
        value := truthyNum (jsParseFloat (values.getD 1 [])) } := by
  simp [mkPoint, hmin, hval]

/-- Helper: the fallback layout when neither header marker is present. -/
theorem mkPoint_fallback_layout (header values : List (List Char))
    (hmin : hasMinHeader header = false) (hval : hasValueHeader header = false) :
    mkPoint header values =
      { timestamp := values.getD 0 []
        min := truthyNum (jsParseFloat (values.getD 1 []))
        max := truthyNum (jsParseFloat (values.getD 2 []))
        avg := truthyNum (jsParseFloat (values.getD 3 []))
        value := none } := by
  simp [mkPoint, hmin, hval]

/-- C3 counterexample: `"0"` parses as the number `0`, yet the emitted
point's `min` is absent. -/
theorem c3_counterexample :
    jsParseFloat (chars "0") = some 0 ∧
      parseDetailCsv (chars "Date,Min,Max,Avg\n12:00:00,0,80,70") =
        [{ timestamp := chars "12:00:00", min := none, max := some 80, avg := some 70,
           value := none }] :=
  ⟨by with_unfolding_all rfl, by with_unfolding_all rfl⟩

/-- C3 amended: a numeric field that fails to parse is absent from the
point and the row is still emitted; a field that parses to a nonzero
number appears with its parsed value; a field that parses to `0` is
dropped like a failing one (the `|| undefined` falsy coercion). -/
theorem c3_numeric_field_handling :
    (∀ header values, 2 ≤ values.length → hasMinHeader header = true →
      ((jsParseFloat (values.getD 1 []) = none → (mkPoint header values).min = none) ∧
       (jsParseFloat (values.getD 1 []) = some 0 → (mkPoint header values).min = none) ∧
       (∀ x : Rat, x ≠ 0 → jsParseFloat (values.getD 1 []) = some x →
          (mkPoint header values).min = some x)) ∧
      ((jsParseFloat (values.getD 2 []) = none → (mkPoint header values).max = none) ∧
       (jsParseFloat (values.getD 2 []) = some 0 → (mkPoint header values).max = none) ∧
       (∀ x : Rat, x ≠ 0 → jsParseFloat (values.getD 2 []) = some x →
          (mkPoint header values).max = some x)) ∧
      ((jsParseFloat (values.getD 3 []) = none → (mkPoint header values).avg = none) ∧
       (jsParseFloat (values.getD 3 []) = some 0 → (mkPoint header values).avg = none) ∧
       (∀ x : Rat, x ≠ 0 → jsParseFloat (values.getD 3 []) = some x →
          (mkPoint header values).avg = some x))) ∧
    (∀ header values, 2 ≤ values.length → hasMinHeader header = false →
        hasValueHeader header = true →
      (jsParseFloat (values.getD 1 []) = none → (mkPoint header values).value = none) ∧
      (jsParseFloat (values.getD 1 []) = some 0 → (mkPoint header values).value = none) ∧
      (∀ x : Rat, x ≠ 0 → jsParseFloat (values.getD 1 []) = some x →
          (mkPoint header values).value = some x)) ∧
    (∀ csvText, 2 ≤ (jsSplit '\n' (jsTrim csvText)).length →
      (parseDetailCsv csvText).length =
        ((jsSplit '\n' (jsTrim csvText)).drop 1).countP
          (fun line => decide (2 ≤ (parseCsvLine line).length))) := by
  refine ⟨?_, ?_, ?_⟩
  · intro header values _ hmin
    rw [mkPoint_min_layout header values hmin]
    dsimp only
    refine ⟨⟨?_, ?_, ?_⟩, ⟨?_, ?_, ?_⟩, ⟨?_, ?_, ?_⟩⟩ <;>
      first
        | (intro x hx h; rw [h]; exact truthyNum_some_of x hx)
        | (intro h; rw [h]; simp [truthyNum])
  · intro header values _ hmin hval
    rw [mkPoint_value_layout header values hmin hval]
    dsimp only
    refine ⟨?_, ?_, ?_⟩ <;>
      first
        | (intro x hx h; rw [h]; exact truthyNum_some_of x hx)
        | (intro h; rw [h]; simp [truthyNum])
  · intro csvText hlen
    rw [parseDetailCsv]
    rw [if_neg (by omega)]
    rw [length_filterMap_countP]
    refine List.countP_congr ?_
    intro line _
    by_cases h2 : (parseCsvLine line).length < 2
    · simp [h2, Nat.not_le.mpr h2]
    · simp [h2, Nat.not_lt.mp h2]

/-- C3 witness: on the spec's own example row the parsed nonzero fields
all appear. -/
theorem c3_witness :
    (mkPoint [chars "Date", chars "Min", chars "Max", chars "Avg"]
        [chars "12:00:00", chars "60", chars "80", chars "70"]).min = some 60 :=
  ((c3_numeric_field_handling.1
      [chars "Date", chars "Min", chars "Max", chars "Avg"]
      [chars "12:00:00", chars "60", chars "80", chars "70"]
      (by decide) (by decide)).1.2.2 60 (by norm_num) (by with_unfolding_all rfl))

/-! Claim C8 — time-series schema decision. The structure of the decision
(one decision per series, fixed columns, value and min/max/avg mutually
exclusive, fewer than 2 lines empty) holds, but the header tests at
src/main.ts:764-768 are `Array.prototype.includes` on the tokenized header
cells — exact equality with `"Min"`/`"min"` or `"Value"`/`"value"` — not a
case-insensitive "mentions". -/

/-- C8 counterexample: the header `"Date,VALUE"` mentions "Value"
case-insensitively, yet the rows are read in the min/max/avg layout, not
the claimed `(timestamp, value)` layout. -/
theorem c8_counterexample :
    containsSubstr (asciiLower (chars "Value")) (asciiLower (chars "VALUE")) = true ∧
      parseDetailCsv (chars "Date,VALUE\n12:00:00,5,6,7") =
        [{ timestamp := chars "12:00:00", min := some 5, max := some 6, avg := some 7,
           value := none }] :=
  ⟨rfl, by with_unfolding_all rfl⟩

/-- C8 amended: fewer than 2 lines yields no points; the layout is decided
once from the tokenized header by exact cell equality — a `"Min"`/`"min"`
cell selects the `(timestamp, min, max, avg)` layout at columns 0-3,
otherwise a `"Value"`/`"value"` cell selects `(timestamp, value)` at
columns 0-1, otherwise the min/max/avg layout is the fallback — and no
emitted point has both `value` and any of `min`/`max`/`avg` populated. -/
theorem c8_schema_decision :
    (∀ csvText, (jsSplit '\n' (jsTrim csvText)).length < 2 → parseDetailCsv csvText = []) ∧
    (∀ header values, hasMinHeader header = true →
      mkPoint header values =
        { timestamp := values.getD 0 []
          min := truthyNum (jsParseFloat (values.getD 1 []))
          max := truthyNum (jsParseFloat (values.getD 2 []))
          avg := truthyNum (jsParseFloat (values.getD 3 []))
          value := none }) ∧
    (∀ header values, hasMinHeader header = false → hasValueHeader header = true →
      mkPoint header values =
        { timestamp := values.getD 0 []
          min := none
          max := none
          avg := none
          value := truthyNum (jsParseFloat (values.getD 1 [])) }) ∧
    (∀ header values, hasMinHeader header = false → hasValueHeader header = false →
      mkPoint header values =
        { timestamp := values.getD 0 []
          min := truthyNum (jsParseFloat (values.getD 1 []))
          max := truthyNum (jsParseFloat (values.getD 2 []))
          avg := truthyNum (jsParseFloat (values.getD 3 []))
          value := none }) ∧
    (∀ csvText p, p ∈ parseDetailCsv csvText →
      p.value = none ∨ (p.min = none ∧ p.max = none ∧ p.avg = none)) := by
  refine ⟨?_, ?_, ?_, ?_, ?_⟩
  · intro csvText hlen
    rw [parseDetailCsv, if_pos hlen]
  · exact mkPoint_min_layout
  · exact mkPoint_value_layout
  · exact mkPoint_fallback_layout
  · intro csvText p hp
    rw [parseDetailCsv] at hp
    by_cases hlen : (jsSplit '\n' (jsTrim csvText)).length < 2
    · rw [if_pos hlen] at hp
      simp at hp
    · rw [if_neg hlen] at hp
      rw [List.mem_filterMap] at hp
      obtain ⟨line, _, hline⟩ := hp
      by_cases h2 : (parseCsvLine line).length < 2
      · simp [h2] at hline
      · simp only [h2, if_false, Option.some.injEq] at hline
        subst hline
        by_cases hmin : hasMinHeader (parseCsvLine ((jsSplit '\n' (jsTrim csvText)).getD 0 []))
        · left
          rw [mkPoint_min_layout _ _ hmin]
        · by_cases hval :
            hasValueHeader (parseCsvLine ((jsSplit '\n' (jsTrim csvText)).getD 0 []))
          · right
            rw [mkPoint_value_layout _ _ (by simpa using hmin) hval]
            exact ⟨rfl, rfl, rfl⟩
          · left
            rw [mkPoint_fallback_layout _ _ (by simpa using hmin) (by simpa using hval)]

/-- C8 witness: a one-line series text yields no points. -/
theorem c8_witness : parseDetailCsv (chars "Date,Min,Max,Avg") = [] :=
  c8_schema_decision.1 (chars "Date,Min,Max,Avg") (by decide)

/-! Claim C1 — detail-file time matching. For a parseable timestamp token
the 5000 ms window is exactly as claimed, but the guard at
src/main.ts:700-705 is `if (fileTimestamp && ... > 5000) continue`, so an
unparseable token never fires the `continue`: such a file is matched even
when the workout has a resolvable start, not excluded. -/

/-- C1 counterexample: a type-matching detail file whose timestamp token
does not parse is matched to a workout that has a resolvable start,
although the claim says it must be excluded. -/
theorem c1_counterexample :
    parseHealthTimestamp (timestampToken (chars "Running-Heart Rate-notatime.csv")) = none ∧
      detailFileMatches (chars "Running") (some 0)
        (chars "Running-Heart Rate-notatime.csv") = true := by
  decide

/-- C1 amended: for a workout with a resolvable start and a detail file
with at least three `-`-parts whose type token equals the workout's type,
a parseable timestamp token matches exactly when it is within 5000 ms of
the start, and an unparseable timestamp token always matches (the
permissive fallback applies whether or not a start is available). -/
theorem c1_time_match (workoutType : List Char) (ws : Int) (name : List Char)
    (hparts : 3 ≤ (jsSplit '-' name).length)
    (htype : typeToken name = workoutType) :
    detailFileMatches workoutType (some ws) name =
      (match parseHealthTimestamp (timestampToken name) with
       | some ft => decide ((ws - ft).natAbs ≤ 5000)
       | none => true) := by
  rw [detailFileMatches, if_neg (by omega), if_neg (by simp [htype])]
  cases parseHealthTimestamp (timestampToken name) <;> rfl

/-- C1 witness: the spec's example file and instant — the file
`Running-Heart Rate-20240902_135208.csv` matches a `Running` workout whose
start is the same instant. -/
theorem c1_witness :
    detailFileMatches (chars "Running") (some 1725285128000)
      (chars "Running-Heart Rate-20240902_135208.csv") = true :=
  (c1_time_match (chars "Running") 1725285128000
      (chars "Running-Heart Rate-20240902_135208.csv")
      (by decide) (by decide)).trans (by decide)

/-! Normalizer helpers: a characterization of the branch
`createWorkoutFromCsvRecord` takes on a row it accepts, and of the rows it
rejects. -/

theorem createWorkout_cases (record : JsRecord) (w : Workout)
    (hw : createWorkoutFromCsvRecord record = some w) :
    ∃ wt ss startMs,
      (recGet record (chars "Workout Type")).map jsTrim = some wt ∧
      (recGet record (chars "Start")).map jsTrim = some ss ∧
      ¬(wt = [] ∨ ss = []) ∧
      parseDateTime (some ss) = some startMs ∧
      w.name = wt ∧ w.start = startMs ∧
      w.endMs = parseDateTime ((recGet record (chars "End")).map jsTrim) ∧
      w.duration =
        (match parseDurationToSeconds ((recGet record (chars "Duration")).map jsTrim),
               parseDateTime ((recGet record (chars "End")).map jsTrim) with
         | none, some e => some (jsRound ((((e - startMs) : Int) : Rat) / 1000))
         | d, _ => d).getD 0 ∧
      w.activeEnergyBurned = parseNumber (recGet record (chars "Active Energy (kcal)")) ∧
      w.restingEnergy = parseNumber (recGet record (chars "Resting Energy (kcal)")) ∧
      w.distance = parseNumber (recGet record (chars "Distance (mi)")) ∧
      w.avgHeartRate = parseNumber (recGet record (chars "Avg. Heart Rate (count/min)")) ∧
      w.maxHeartRate = parseNumber (recGet record (chars "Max. Heart Rate (count/min)")) ∧
      w.flightsClimbed = parseNumber (recGet record (chars "Flights Climbed")) ∧
      w.stepCount = parseNumber (recGet record (chars "Step Count")) ∧
      w.avgSpeed = parseNumber (recGet record (chars "Avg. Speed (mi/hr)")) ∧
      w.maxSpeed = parseNumber (recGet record (chars "Max. Speed (mi/hr)")) ∧
      w.elevationAscended = parseNumber (recGet record (chars "Elevation Ascended (ft)")) ∧
      w.elevationDescended = parseNumber (recGet record (chars "Elevation Descended (ft)")) ∧
      w.temperature = parseNumber (recGet record (chars "Temperature (degF)")) ∧
      w.humidity = parseNumber (recGet record (chars "Humidity (%)")) := by
  unfold createWorkoutFromCsvRecord at hw
  cases ht : (recGet record (chars "Workout Type")).map jsTrim with
  | none => rw [ht] at hw; exact absurd hw (by simp)
  | some wt =>
    cases hs : (recGet record (chars "Start")).map jsTrim with
    | none => rw [ht, hs] at hw; exact absurd hw (by simp)
    | some ss =>
      rw [ht, hs] at hw
      dsimp only at hw
      by_cases hempty : wt = [] ∨ ss = []
      · rw [if_pos hempty] at hw; exact absurd hw (by simp)
      · rw [if_neg hempty] at hw
        cases hp : parseDateTime (some ss) with
        | none => rw [hp] at hw; exact absurd hw (by simp)
        | some startMs =>
          rw [hp] at hw
          dsimp only at hw
          have hw2 := Option.some.inj hw
          subst hw2
          exact ⟨wt, ss, startMs, rfl, rfl, hempty, hp, rfl, rfl, rfl, rfl, rfl,
            rfl, rfl, rfl, rfl, rfl, rfl, rfl, rfl, rfl, rfl, rfl, rfl⟩

theorem createWorkout_none_iff (record : JsRecord) :
    createWorkoutFromCsvRecord record = none ↔
      ((recGet record (chars "Workout Type")).map jsTrim).getD [] = [] ∨
      ((recGet record (chars "Start")).map jsTrim).getD [] = [] ∨
      parseDateTime ((recGet record (chars "Start")).map jsTrim) = none := by
  unfold createWorkoutFromCsvRecord
  cases ht : (recGet record (chars "Workout Type")).map jsTrim with
  | none => simp
  | some wt =>
    cases hs : (recGet record (chars "Start")).map jsTrim with
    | none => simp
    | some ss =>
      dsimp only
      by_cases hempty : wt = [] ∨ ss = []
      · rw [if_pos hempty]
        rcases hempty with h | h <;> simp [h]
      · rw [if_neg hempty]
        push_neg at hempty
        cases hp : parseDateTime (some ss) with
        | none => simp [hempty.1, hempty.2]
        | some startMs => simp [hempty.1, hempty.2]

/-- Helper: the duration fold is nonnegative when every parsed part is. -/
theorem duration_foldl_nonneg (parts : List (Option Int)) (init : Int)
    (hinit : 0 ≤ init)
    (hok : ∀ p ∈ parts, ∀ k : Int, p = some k → 0 ≤ k) :
    0 ≤ parts.foldl (fun total p => total * 60 + p.getD 0) init := by
  induction parts generalizing init with
  | nil => simpa using hinit
  | cons p rest ih =>
    rw [List.foldl_cons]
    refine ih _ ?_ (fun q hq => hok q (List.mem_cons_of_mem _ hq))
    have hp : 0 ≤ p.getD 0 := by
      cases p with
      | none => simp
      | some k => simpa using hok (some k) (List.mem_cons_self _ _) k rfl
    have := mul_nonneg hinit (by norm_num : (0 : Int) ≤ 60)
    omega

/-- Helper: `Math.round` of a nonnegative rational is nonnegative. -/
theorem jsRound_nonneg (q : Rat) (h : 0 ≤ q) : 0 ≤ jsRound q := by
  rw [jsRound]
  rw [Int.le_floor]
  push_cast
  linarith

/-- Helper: `any` over a mapped list, stated in applied form. -/
theorem any_map_applied {α β : Type} (l : List α) (f : α → β) (p : β → Bool) :
    (l.map f).any p = l.any (fun x => p (f x)) := by
  induction l with
  | nil => rfl
  | cons a t ih => simp [ih]

/-- Helper: the successful case of `parseDurationToSeconds`. -/
theorem parseDurationToSeconds_some_eq (d : List Char) (hd0 : d ≠ [])
    (hany : ((jsSplit ':' d).map jsParseInt).any (fun p => p.isNone) = false) :
    parseDurationToSeconds (some d) =
      some (((jsSplit ':' d).map jsParseInt).foldl
        (fun total p => total * 60 + p.getD 0) 0) := by
  simp only [parseDurationToSeconds]
  rw [if_neg hd0]
  rw [hany]
  rfl

/-- Helper: inversion of a successful `parseDurationToSeconds`. -/
theorem parseDurationToSeconds_some_inv (v : Option (List Char)) (t : Int)
    (h : parseDurationToSeconds v = some t) :
    ∃ d, v = some d ∧ d ≠ [] ∧
      ((jsSplit ':' d).map jsParseInt).any (fun p => p.isNone) = false ∧
      t = ((jsSplit ':' d).map jsParseInt).foldl
        (fun total p => total * 60 + p.getD 0) 0 := by
  cases v with
  | none => simp [parseDurationToSeconds] at h
  | some d =>
    by_cases hd0 : d = []
    · simp [parseDurationToSeconds, hd0] at h
    · by_cases hany : ((jsSplit ':' d).map jsParseInt).any (fun p => p.isNone) = true
      · simp only [parseDurationToSeconds] at h
        rw [if_neg hd0] at h
        rw [hany] at h
        simp at h
      · rw [Bool.not_eq_true] at hany
        rw [parseDurationToSeconds_some_eq d hd0 hany] at h
        exact ⟨d, rfl, hd0, hany, (Option.some.inj h).symm⟩

/-! Claim C5 — duration resolution order of the normalizer
(src/main.ts:924-933, 991-1002): the explicit `Duration` fold takes
precedence, then `round((end - start)/1000)` when an end parsed, else 0. -/

/-- C5: for every accepted row, the workout's duration follows the claimed
resolution order. -/
theorem c5_duration_resolution (record : JsRecord) (w : Workout)
    (hw : createWorkoutFromCsvRecord record = some w) :
    (∀ d, (recGet record (chars "Duration")).map jsTrim = some d →
      (jsSplit ':' d).all (fun part => (jsParseInt part).isSome) = true →
      w.duration =
        ((jsSplit ':' d).map jsParseInt).foldl (fun total p => total * 60 + p.getD 0) 0) ∧
    (parseDurationToSeconds ((recGet record (chars "Duration")).map jsTrim) = none →
      ∀ e, parseDateTime ((recGet record (chars "End")).map jsTrim) = some e →
        w.duration = jsRound ((((e - w.start) : Int) : Rat) / 1000)) ∧
    (parseDurationToSeconds ((recGet record (chars "Duration")).map jsTrim) = none →
      parseDateTime ((recGet record (chars "End")).map jsTrim) = none →
      w.duration = 0) := by
  obtain ⟨wt, ss, startMs, ht, hs, hne, hp, hname, hstart, hendq, hdur, hrest⟩ :=
    createWorkout_cases record w hw
  refine ⟨?_, ?_, ?_⟩
  · intro d hd hall
    have hd0 : d ≠ [] := by
      rintro rfl
      exact absurd hall (by decide)
    have hanyF : ((jsSplit ':' d).map jsParseInt).any (fun p => p.isNone) = false := by
      rw [any_map_applied]
      rw [List.any_eq_false]
      intro part hpart
      have h1 := List.all_eq_true.mp hall part hpart
      rw [Option.isSome_iff_exists] at h1
      obtain ⟨a, ha⟩ := h1
      simp [ha]
    have hsome : parseDurationToSeconds ((recGet record (chars "Duration")).map jsTrim) =
        some (((jsSplit ':' d).map jsParseInt).foldl
          (fun total p => total * 60 + p.getD 0) 0) := by
      rw [hd]
      exact parseDurationToSeconds_some_eq d hd0 hanyF
    rw [hdur, hsome]
    cases parseDateTime ((recGet record (chars "End")).map jsTrim) <;> rfl
  · intro hnone e he
    rw [hdur, hnone, he, hstart]
    rfl
  · intro hnone hnoneE
    rw [hdur, hnone, hnoneE]
    rfl

/-- C5 witness: the spec's example row (`Duration="0:45:30"`) resolves to
2730 seconds. -/
theorem c5_witness :
    ((createWorkoutFromCsvRecord sampleDurationRow).getD
        { name := [], start := 0, endMs := none, duration := -7, location := none,
          activeEnergyBurned := none, restingEnergy := none, intensity := none,
          distance := none, avgHeartRate := none, maxHeartRate := none,
          flightsClimbed := none, stepCount := none, avgSpeed := none, maxSpeed := none,
          elevationAscended := none, elevationDescended := none, temperature := none,
          humidity := none }).duration = 2730 :=
  (((c5_duration_resolution sampleDurationRow _ (by with_unfolding_all rfl)).1
    (chars "0:45:30") (by decide) (by decide)).trans (by decide))

/-! Claim C6 — the `durationSeconds ≥ 0` invariant. Nothing in the
normalizer clamps the value: a `Duration` field with a negative part (for
example `"-5"`, which `parseInt` accepts) or an `End` before `Start`
produces a negative duration on an accepted record. -/

/-- C6 counterexample: a row the normalizer accepts whose record carries
`durationSeconds = -5 < 0`. -/
theorem c6_counterexample :
    (createWorkoutFromCsvRecord sampleNegativeDurationRow).map Workout.duration =
      some (-5) := by
  with_unfolding_all rfl

/-- C6 amended: an accepted record's `durationSeconds` is an integer, and
it is nonnegative provided every parsed part of an explicit `Duration`
field is nonnegative and, for the derived case, the parsed end does not
precede the parsed start; without those provisos it can be negative. -/
theorem c6_duration_nonneg (record : JsRecord) (w : Workout)
    (hw : createWorkoutFromCsvRecord record = some w)
    (hparts : (match (recGet record (chars "Duration")).map jsTrim with
               | some d => (jsSplit ':' d).all (fun part =>
                   match jsParseInt part with
                   | some k => decide (0 ≤ k)
                   | none => true)
               | none => true) = true)
    (hse : (match parseDateTime ((recGet record (chars "Start")).map jsTrim),
                  parseDateTime ((recGet record (chars "End")).map jsTrim) with
            | some s, some e => decide (s ≤ e)
            | _, _ => true) = true) :
    0 ≤ w.duration := by
  obtain ⟨wt, ss, startMs, ht, hs, hne, hp, hname, hstart, hendq, hdur, hrest⟩ :=
    createWorkout_cases record w hw
  rw [hdur]
  cases hexp : parseDurationToSeconds ((recGet record (chars "Duration")).map jsTrim) with
  | some t =>
    have ht0 : 0 ≤ t := by
      obtain ⟨d, hd, hd0, hany, ht2⟩ := parseDurationToSeconds_some_inv _ _ hexp
      rw [hd] at hparts
      refine ht2 ▸ duration_foldl_nonneg _ 0 le_rfl ?_
      intro p hpmem k hk
      obtain ⟨part, hpart, hpeq⟩ := List.mem_map.mp hpmem
      have := List.all_eq_true.mp hparts part hpart
      rw [hpeq, hk] at this
      simpa using this
    cases he : parseDateTime ((recGet record (chars "End")).map jsTrim) <;> simpa using ht0
  | none =>
    cases he : parseDateTime ((recGet record (chars "End")).map jsTrim) with
    | none => simp
    | some e =>
      dsimp only
      rw [Option.getD_some]
      refine jsRound_nonneg _ ?_
      have hle : startMs ≤ e := by
        rw [hs, hp, he] at hse
        simpa using hse
      have : (0 : Rat) ≤ ((e - startMs : Int) : Rat) := by
        push_cast
        have : (startMs : Rat) ≤ (e : Rat) := by exact_mod_cast hle
        linarith
      positivity

/-- C6 witness: the spec's example row satisfies the provisos, and its
accepted record's duration is nonnegative. -/
theorem c6_witness :
    0 ≤ ((createWorkoutFromCsvRecord sampleDurationRow).getD
        { name := [], start := 0, endMs := none, duration := -7, location := none,
          activeEnergyBurned := none, restingEnergy := none, intensity := none,
          distance := none, avgHeartRate := none, maxHeartRate := none,
          flightsClimbed := none, stepCount := none, avgSpeed := none, maxSpeed := none,
          elevationAscended := none, elevationDescended := none, temperature := none,
          humidity := none }).duration :=
  c6_duration_nonneg sampleDurationRow _ (by with_unfolding_all rfl)
    (by decide) (by decide)

/-! Claim C9 — acceptance/rejection of summary rows by the normalizer
(src/main.ts:912-975, 1004-1011). -/

/-- C9: the normalizer returns `null` exactly for an empty (or missing)
`Workout Type`, an empty (or missing) `Start`, or an unparseable `Start`;
on every accepted row, a quantity field whose text does not parse to a
finite number is simply absent from the record. -/
theorem c9_null_and_quantities (record : JsRecord) :
    (createWorkoutFromCsvRecord record = none ↔
      ((recGet record (chars "Workout Type")).map jsTrim).getD [] = [] ∨
      ((recGet record (chars "Start")).map jsTrim).getD [] = [] ∨
      parseDateTime ((recGet record (chars "Start")).map jsTrim) = none) ∧
    (∀ w, createWorkoutFromCsvRecord record = some w →
      (parseNumber (recGet record (chars "Active Energy (kcal)")) = none →
        w.activeEnergyBurned = none) ∧
      (parseNumber (recGet record (chars "Resting Energy (kcal)")) = none →
        w.restingEnergy = none) ∧
      (parseNumber (recGet record (chars "Distance (mi)")) = none →
        w.distance = none) ∧
      (parseNumber (recGet record (chars "Avg. Heart Rate (count/min)")) = none →
        w.avgHeartRate = none) ∧
      (parseNumber (recGet record (chars "Max. Heart Rate (count/min)")) = none →
        w.maxHeartRate = none) ∧
      (parseNumber (recGet record (chars "Flights Climbed")) = none →
        w.flightsClimbed = none) ∧
      (parseNumber (recGet record (chars "Step Count")) = none →
        w.stepCount = none) ∧
      (parseNumber (recGet record (chars "Avg. Speed (mi/hr)")) = none →
        w.avgSpeed = none) ∧
      (parseNumber (recGet record (chars "Max. Speed (mi/hr)")) = none →
        w.maxSpeed = none) ∧
      (parseNumber (recGet record (chars "Elevation Ascended (ft)")) = none →
        w.elevationAscended = none) ∧
      (parseNumber (recGet record (chars "Elevation Descended (ft)")) = none →
        w.elevationDescended = none) ∧
      (parseNumber (recGet record (chars "Temperature (degF)")) = none →
        w.temperature = none) ∧
      (parseNumber (recGet record (chars "Humidity (%)")) = none →
        w.humidity = none)) := by
  constructor
  · exact createWorkout_none_iff record
  · intro w hw
    obtain ⟨wt, ss, startMs, ht, hs, hne, hp, hname, hstart, hendq, hdur,
      hAE, hRE, hDI, hAH, hMH, hFC, hSC, hAS, hMS, hEA, hED, hTE, hHU⟩ :=
      createWorkout_cases record w hw
    exact ⟨fun h => hAE.trans h, fun h => hRE.trans h, fun h => hDI.trans h,
      fun h => hAH.trans h, fun h => hMH.trans h, fun h => hFC.trans h,
      fun h => hSC.trans h, fun h => hAS.trans h, fun h => hMS.trans h,
      fun h => hEA.trans h, fun h => hED.trans h, fun h => hTE.trans h,
      fun h => hHU.trans h⟩

/-- C9 witness: a row with an empty `Workout Type` is rejected. -/
theorem c9_witness : createWorkoutFromCsvRecord sampleTypelessRow = none :=
  (c9_null_and_quantities sampleTypelessRow).1.mpr (Or.inl (by decide))

/-! Claim C10 — `parseWorkoutCsvRows` (src/main.ts:846-884): the header
gate, the skipping of all-empty data rows, and the padding of short rows. -/

/-- C10: without a header column containing "workout type"
(case-insensitive) no rows are produced; with it, exactly the nonempty,
not-all-empty data lines produce rows; a row object has one entry per
header column and a column beyond the row's tokenized fields carries the
empty string. -/
theorem c10_summary_row_parsing :
    (∀ csvText,
      ((parseCsvLine (((splitLinesJs csvText).map jsTrim).getD 0 [])).map
          cleanHeaderCell).any
          (fun col => containsSubstr (chars "workout type") (asciiLower col)) = false →
      parseWorkoutCsvRows csvText = []) ∧
    (∀ csvText headerLine dataLines,
      (splitLinesJs csvText).map jsTrim = headerLine :: dataLines →
      headerLine ≠ [] →
      ((parseCsvLine headerLine).map cleanHeaderCell).any
          (fun col => containsSubstr (chars "workout type") (asciiLower col)) = true →
      (parseWorkoutCsvRows csvText).length =
        dataLines.countP (fun line =>
          !line.isEmpty && !((parseCsvLine line).all (fun v => v.isEmpty)))) ∧
    (∀ header values j, j < header.length → values.length ≤ j →
      (mkRow header values).getD j ([], []) = (keyOf header j, [])) ∧
    (∀ header values, (mkRow header values).length = header.length) := by
  refine ⟨?_, ?_, ?_, ?_⟩
  · intro csvText hany
    unfold parseWorkoutCsvRows
    cases hl : (splitLinesJs csvText).map jsTrim with
    | nil => rfl
    | cons headerLine dataLines =>
      rw [hl] at hany
      rw [List.getD_cons_zero] at hany
      dsimp only
      by_cases hh : headerLine = []
      · rw [if_pos hh]
      · rw [if_neg hh, if_pos (by simp [hany])]
  · intro csvText headerLine dataLines hl hh hany
    unfold parseWorkoutCsvRows
    rw [hl]
    dsimp only
    rw [if_neg hh, if_neg (by simp [hany])]
    rw [length_filterMap_countP]
    refine List.countP_congr ?_
    intro line _
    by_cases h0 : line = []
    · simp [h0]
    · by_cases hall : (parseCsvLine line).all (fun v => v = []) = true
      · have h2 : (parseCsvLine line).all (fun v => v.isEmpty) = true := by
          rw [List.all_eq_true] at hall ⊢
          intro v hv
          simpa using hall v hv
        simp [h0, hall, h2]
      · have h2 : (parseCsvLine line).all (fun v => v.isEmpty) = false := by
          rw [Bool.eq_false_iff]
          intro hc
          refine hall ?_
          rw [List.all_eq_true] at hc ⊢
          intro v hv
          simpa using hc v hv
        simp [h0, hall, h2]
  · intro header values j hj hvj
    rw [mkRow]
    rw [List.getD_eq_getElem?_getD]
    rw [List.getElem?_map]
    rw [List.getElem?_range hj]
    simp [List.getElem?_eq_none hvj]
  · intro header values
    simp [mkRow]

/-- C10 witness: a CSV whose header has no workout-type column yields no
rows. -/
theorem c10_witness : parseWorkoutCsvRows (chars "A,B\nx,y") = [] :=
  c10_summary_row_parsing.1 (chars "A,B\nx,y") (by decide)

/-! Claim C7 — the stored-archive round trip. Byte-offset bookkeeping for
the canonical single-entry archive `mkStoredZip`. -/

theorem byteAt_shift (a b : List Nat) (i : Nat) :
    byteAt (a ++ b) (a.length + i) = byteAt b i := by
  rw [byteAt, byteAt, List.getD_append_right a b 0 _ (Nat.le_add_right _ _),
    Nat.add_sub_cancel_left]

theorem readU16_shift (a b : List Nat) (i j : Nat) (h : j = a.length + i) :
    readU16 (a ++ b) j = readU16 b i := by
  subst h
  rw [readU16, readU16, byteAt_shift,
    show a.length + i + 1 = a.length + (i + 1) from by omega, byteAt_shift]

theorem readU32_shift (a b : List Nat) (i j : Nat) (h : j = a.length + i) :
    readU32 (a ++ b) j = readU32 b i := by
  subst h
  rw [readU32, readU32, byteAt_shift,
    show a.length + i + 1 = a.length + (i + 1) from by omega, byteAt_shift,
    show a.length + i + 2 = a.length + (i + 2) from by omega, byteAt_shift,
    show a.length + i + 3 = a.length + (i + 3) from by omega, byteAt_shift]

theorem sliceList_shift (a b : List Nat) (j k : Nat) (h : j = a.length) :
    sliceList (a ++ b) j k = b.take k := by
  subst h
  rw [sliceList, List.drop_left]

theorem length_localHeaderBytes (n p : List Nat) : (localHeaderBytes n p).length = 30 := by
  simp [localHeaderBytes, u16le, u32le]

theorem length_centralDirBytes (n p : List Nat) : (centralDirBytes n p).length = 46 := by
  simp [centralDirBytes, u16le, u32le]

theorem length_eocdBytes (n p : List Nat) : (eocdBytes n p).length = 22 := by
  simp [eocdBytes, u16le, u32le]

theorem length_mkStoredZip (n p : List Nat) :
    (mkStoredZip n p).length = 98 + 2 * n.length + p.length := by
  simp [mkStoredZip, length_localHeaderBytes, length_centralDirBytes, length_eocdBytes]
  omega

theorem mk_assoc_eocd (n p : List Nat) :
    mkStoredZip n p =
      (localHeaderBytes n p ++ n ++ p ++ (centralDirBytes n p ++ n)) ++ eocdBytes n p := rfl

theorem mk_assoc_cd (n p : List Nat) :
    mkStoredZip n p =
      (localHeaderBytes n p ++ n ++ p) ++
        (centralDirBytes n p ++ (n ++ eocdBytes n p)) := by
  simp [mkStoredZip, List.append_assoc]

theorem mk_assoc_name2 (n p : List Nat) :
    mkStoredZip n p =
      (localHeaderBytes n p ++ n ++ p ++ centralDirBytes n p) ++
        (n ++ eocdBytes n p) := by
  simp [mkStoredZip, List.append_assoc]

theorem mk_assoc_payload (n p : List Nat) :
    mkStoredZip n p =
      (localHeaderBytes n p ++ n) ++
        (p ++ (centralDirBytes n p ++ n ++ eocdBytes n p)) := by
  simp [mkStoredZip, List.append_assoc]

theorem read_eocd_sig (n p : List Nat) (j : Nat)
    (hj : j = 76 + 2 * n.length + p.length) :
    readU32 (mkStoredZip n p) j = 0x06054b50 := by
  rw [mk_assoc_eocd]
  rw [readU32_shift _ _ 0 _ (by
    simp [length_localHeaderBytes, length_centralDirBytes]
    omega)]
  have h2 : readU32 (eocdBytes n p) 0 =
      80 + 256 * 75 + 65536 * 5 + 16777216 * 6 := rfl
  rw [h2]

theorem read_eocd_total (n p : List Nat) (j : Nat)
    (hj : j = 76 + 2 * n.length + p.length + 10) :
    readU16 (mkStoredZip n p) j = 1 := by
  rw [mk_assoc_eocd]
  rw [readU16_shift _ _ 10 _ (by
    simp [length_localHeaderBytes, length_centralDirBytes]
    omega)]
  rfl

theorem read_eocd_cdoff (n p : List Nat) (j : Nat)
    (hj : j = 76 + 2 * n.length + p.length + 16)
    (hsz : 30 + n.length + p.length < 4294967296) :
    readU32 (mkStoredZip n p) j = 30 + n.length + p.length := by
  rw [mk_assoc_eocd]
  rw [readU32_shift _ _ 16 _ (by
    simp [length_localHeaderBytes, length_centralDirBytes]
    omega)]
  have h2 : readU32 (eocdBytes n p) 16 =
      (30 + n.length + p.length) % 256 +
        256 * ((30 + n.length + p.length) / 256 % 256) +
        65536 * ((30 + n.length + p.length) / 65536 % 256) +
        16777216 * ((30 + n.length + p.length) / 16777216 % 256) := rfl
  rw [h2]
  omega

theorem read_cd_sig (n p : List Nat) (j : Nat)
    (hj : j = 30 + n.length + p.length) :
    readU32 (mkStoredZip n p) j = 0x02014b50 := by
  rw [mk_assoc_cd]
  rw [readU32_shift _ _ 0 _ (by
    simp [length_localHeaderBytes]
    omega)]
  have h2 : readU32 (centralDirBytes n p ++ (n ++ eocdBytes n p)) 0 =
      80 + 256 * 75 + 65536 * 1 + 16777216 * 2 := rfl
  rw [h2]

theorem read_cd_nameLen (n p : List Nat) (j : Nat)
    (hj : j = 30 + n.length + p.length + 28) (hn : n.length < 65536) :
    readU16 (mkStoredZip n p) j = n.length := by
  rw [mk_assoc_cd]
  rw [readU16_shift _ _ 28 _ (by
    simp [length_localHeaderBytes]
    omega)]
  have h2 : readU16 (centralDirBytes n p ++ (n ++ eocdBytes n p)) 28 =
      n.length % 256 + 256 * (n.length / 256 % 256) := rfl
  rw [h2]
  omega

theorem read_cd_extra (n p : List Nat) (j : Nat)
    (hj : j = 30 + n.length + p.length + 30) :
    readU16 (mkStoredZip n p) j = 0 := by
  rw [mk_assoc_cd]
  rw [readU16_shift _ _ 30 _ (by
    simp [length_localHeaderBytes]
    omega)]
  rfl

theorem read_cd_comment (n p : List Nat) (j : Nat)
    (hj : j = 30 + n.length + p.length + 32) :
    readU16 (mkStoredZip n p) j = 0 := by
  rw [mk_assoc_cd]
  rw [readU16_shift _ _ 32 _ (by
    simp [length_localHeaderBytes]
    omega)]
  rfl

theorem read_cd_method (n p : List Nat) (j : Nat)
    (hj : j = 30 + n.length + p.length + 10) :
    readU16 (mkStoredZip n p) j = 0 := by
  rw [mk_assoc_cd]
  rw [readU16_shift _ _ 10 _ (by
    simp [length_localHeaderBytes]
    omega)]
  rfl

theorem read_cd_compSize (n p : List Nat) (j : Nat)
    (hj : j = 30 + n.length + p.length + 20)
    (hsz : 30 + n.length + p.length < 4294967296) :
    readU32 (mkStoredZip n p) j = p.length := by
  rw [mk_assoc_cd]
  rw [readU32_shift _ _ 20 _ (by
    simp [length_localHeaderBytes]
    omega)]
  have h2 : readU32 (centralDirBytes n p ++ (n ++ eocdBytes n p)) 20 =
      p.length % 256 + 256 * (p.length / 256 % 256) +
        65536 * (p.length / 65536 % 256) + 16777216 * (p.length / 16777216 % 256) := rfl
  rw [h2]
  omega

set_option maxHeartbeats 1600000 in
theorem read_cd_localOff (n p : List Nat) (j : Nat)
    (hj : j = 30 + n.length + p.length + 42) :
    readU32 (mkStoredZip n p) j = 0 := by
  rw [mk_assoc_cd]
  rw [readU32_shift _ _ 42 _ (by
    simp [length_localHeaderBytes]
    omega)]
  rfl

theorem slice_cd_name (n p : List Nat) (j : Nat)
    (hj : j = 30 + n.length + p.length + 46) :
    sliceList (mkStoredZip n p) j n.length = n := by
  rw [mk_assoc_name2]
  rw [sliceList_shift _ _ _ _ (by
    simp [length_localHeaderBytes, length_centralDirBytes]
    omega)]
  exact List.take_left n (eocdBytes n p)

theorem read_lh_nameLen (n p : List Nat) (j : Nat)
    (hj : j = 26) (hn : n.length < 65536) :
    readU16 (mkStoredZip n p) j = n.length := by
  subst hj
  have h2 : readU16 (mkStoredZip n p) 26 =
      n.length % 256 + 256 * (n.length / 256 % 256) := rfl
  rw [h2]
  omega

theorem read_lh_extra (n p : List Nat) (j : Nat) (hj : j = 28) :
    readU16 (mkStoredZip n p) j = 0 := by
  subst hj
  rfl

theorem slice_payload (n p : List Nat) (j : Nat) (hj : j = 30 + n.length) :
    sliceList (mkStoredZip n p) j p.length = p := by
  rw [mk_assoc_payload]
  rw [sliceList_shift _ _ _ _ (by
    simp [length_localHeaderBytes]
    omega)]
  exact List.take_left p _

/-- C7: on a well-formed stored single-entry archive, `parseZipEntries`
locates exactly the one entry (via the end-of-central-directory record and
the central-directory walk), and `decodeZipEntry` on it returns exactly the
UTF-8 decoding of the original payload bytes. -/
theorem c7_stored_roundtrip (n p : List Nat)
    (hn : n.length < 65536) (hsz : 30 + n.length + p.length < 4294967296) :
    parseZipEntries (mkStoredZip n p) =
      [⟨utf8Decode n, 0, p.length, 30 + n.length⟩] ∧
    (∀ inflate, decodeZipEntry inflate (mkStoredZip n p)
        ⟨utf8Decode n, 0, p.length, 30 + n.length⟩ =
      Except.ok (some (utf8Decode p))) := by
  have hL := length_mkStoredZip n p
  constructor
  · have hfind : findEndOfCentralDirectory (mkStoredZip n p) =
        some (76 + 2 * n.length + p.length) := by
      rw [findEndOfCentralDirectory]
      rw [if_neg (by omega)]
      rw [hL]
      have h22 : 98 + 2 * n.length + p.length - 22 = (75 + 2 * n.length + p.length) + 1 := by
        omega
      rw [h22]
      rw [findEOCDFrom]
      rw [read_eocd_sig n p _ (by omega)]
      rw [if_pos rfl]
      congr 1
      omega
    rw [parseZipEntries]
    rw [if_neg (by omega)]
    rw [hfind]
    dsimp only
    rw [read_eocd_total n p _ rfl]
    rw [read_eocd_cdoff n p _ rfl hsz]
    rw [show (1 : Nat) = 0 + 1 from rfl]
    rw [parseZipLoop]
    rw [if_neg (by rw [hL]; omega)]
    rw [read_cd_sig n p _ rfl]
    rw [if_neg (by simp)]
    rw [read_cd_nameLen n p _ rfl hn]
    rw [read_cd_extra n p _ rfl]
    rw [read_cd_comment n p _ rfl]
    rw [read_cd_method n p _ rfl]
    rw [read_cd_compSize n p _ rfl hsz]
    rw [read_cd_localOff n p _ rfl]
    rw [if_neg (by rw [hL]; omega)]
    rw [slice_cd_name n p _ rfl]
    rw [if_neg (by rw [hL]; omega)]
    rw [read_lh_nameLen n p _ (by omega) hn]
    rw [read_lh_extra n p _ (by omega)]
    rw [if_neg (by rw [hL]; omega)]
    rw [parseZipLoop]
    congr 2
  · intro inflate
    rw [decodeZipEntry]
    rw [if_neg (by rw [hL]; dsimp only; omega)]
    dsimp only
    rw [if_pos rfl]
    rw [slice_payload n p _ (by omega)]

/-- C7 witness: a concrete one-entry stored archive (name `"a"`, payload
`"hi"`) round-trips. -/
theorem c7_witness :
    parseZipEntries (mkStoredZip [97] [104, 105]) =
      [⟨utf8Decode [97], 0, [104, 105].length, 30 + [97].length⟩] ∧
    (∀ inflate, decodeZipEntry inflate (mkStoredZip [97] [104, 105])
        ⟨utf8Decode [97], 0, [104, 105].length, 30 + [97].length⟩ =
      Except.ok (some (utf8Decode [104, 105]))) :=
  c7_stored_roundtrip [97] [104, 105] (by decide) (by decide)

end WorkoutImporter
